import Mathlib

/-!
Shallow embedding of the SagaCraft Rust core, for checking the spec's claims.

Source layout (paths relative to the repository root):
* `src/rust/sagacraft_rs/src/systems/quests.rs` — quest engine
  (`QuestObjective`, `QuestStage`, `Quest`, `QuestTracker`, `QuestSystem`).
* `src/sagacraft_rs/src/pyport/core/event_bus.rs` — priority event bus.
* `src/sagacraft_rs/src/game_state.rs` — `AdventureGame::move_player`.
* `src/rust/sagacraft_rs/src/adventure.rs` — adventure document
  validation and JSON (de)serialization.

Modelling conventions:
* `i32` values are `Int`s; arithmetic that can overflow in Rust is wrapped
  with `wrap32` (two's-complement wrap-around, the release-profile
  semantics; the debug profile panics instead — noted where relevant).
* `usize` values are `Nat`s; `usizeSub` is wrapping `usize` subtraction.
* `HashMap`/`HashSet` are association lists / lists of keys, with
  key-based lookup, insert (replacing in place) and erase.
* `chrono::Utc::now()` timestamps are threaded as an explicit `now`
  string parameter.
* `f32` arithmetic is modelled exactly: an `f32` value is a dyadic
  rational `m * 2^e` (an integer pair), and every operation rounds to
  24 significand bits with IEEE-754 round-to-nearest, ties-to-even.
  All values arising here are far below the `f32` overflow threshold,
  so infinities do not arise.
-/

/-- Two's-complement wrap of an integer into the `i32` range. -/
def wrap32 (x : Int) : Int := (x + 2 ^ 31) % 2 ^ 32 - 2 ^ 31

/-- Wrapping `usize` subtraction (release-profile semantics of `a - b`).
In a debug build the same expression panics on underflow. -/
def usizeSub (a b : Nat) : Nat := (a + (2 ^ 64 - b % 2 ^ 64)) % 2 ^ 64

/-- Wrapping `i32` subtraction. -/
def sub32 (a b : Int) : Int := wrap32 (a - b)

/-- `i32::abs` under the release profile (`i32::MIN.abs()` wraps to
`i32::MIN`; a debug build panics there). -/
def abs32 (x : Int) : Int := wrap32 |x|

/-- Key-based lookup in an association list (the `HashMap::get` model). -/
def lookupA {κ α : Type} [DecidableEq κ] : List (κ × α) → κ → Option α
  | [], _ => none
  | p :: rest, k => if p.1 = k then some p.2 else lookupA rest k

/-- `HashMap::contains_key` model. -/
def containsA {κ α : Type} [DecidableEq κ] (l : List (κ × α)) (k : κ) : Bool :=
  (lookupA l k).isSome

/-- `HashMap::insert` model: replace the entry in place, or append. -/
def insertA {κ α : Type} [DecidableEq κ] : List (κ × α) → κ → α → List (κ × α)
  | [], k, v => [(k, v)]
  | p :: rest, k, v => if p.1 = k then (k, v) :: rest else p :: insertA rest k v

/-- `HashMap::remove` model. -/
def eraseA {κ α : Type} [DecidableEq κ] : List (κ × α) → κ → List (κ × α)
  | [], _ => []
  | p :: rest, k => if p.1 = k then rest else p :: eraseA rest k

/-- `HashSet::insert` model (sets are lists of distinct keys). -/
def insertS (l : List String) (x : String) : List String :=
  if x ∈ l then l else l ++ [x]

/-- `s.trim().is_empty()` from Rust, character-wise: the trimmed string
is empty exactly when every character is whitespace. (Written over the
character list so the kernel can evaluate it; Rust's Unicode
`White_Space` and `Char.isWhitespace` agree on the ASCII content the
repository handles.) -/
def trimEmpty (s : String) : Bool :=
  s.data.all (fun c => c.isWhitespace)

/-- `str::to_lowercase` (character-wise; agrees with Rust on ASCII,
which is all the repository's direction strings use). -/
def lowerStr (s : String) : String :=
  String.mk (s.data.map Char.toLower)

/-- A JSON document tree (`serde_json::Value`), restricted to the shapes
the adventure schema and event payloads actually use: strings, arrays
and string-keyed objects. An object is its field list in document
order. -/
inductive Json where
  | str : String → Json
  | arr : List Json → Json
  | obj : List (String × Json) → Json
  deriving Repr

/-- Fuel-driven binary logarithm on `Nat` (structural recursion so that
the kernel can evaluate it): `log2fuel f n` is `⌊log₂ n⌋` for `n ≥ 1`
whenever `n < 2 ^ f`. -/
def log2fuel : Nat → Nat → Nat
  | 0, _ => 0
  | fuel + 1, n => if n < 2 then 0 else log2fuel fuel (n / 2) + 1

/-- `⌊log₂ n⌋` for the magnitudes arising here (all far below `2^300`). -/
def log2N (n : Nat) : Nat := log2fuel 300 n

/-- An `f32` value, represented exactly as the dyadic rational
`mantissa * 2 ^ exponent`. -/
structure F32 where
  mantissa : Int
  exponent : Int
  deriving DecidableEq, Repr

namespace F32

/-- Round `num / den * 2 ^ 0` (with `den > 0`) to the nearest integer,
ties to even. -/
def roundFrac (num den : Int) : Int :=
  let q := num / den
  let r := num - q * den
  if 2 * r < den then q
  else if den < 2 * r then q + 1
  else if q % 2 = 0 then q else q + 1

/-- Floor of `log₂ (num / den)` for positive `num`, `den`. -/
def floorLog2Frac (num den : Int) : Int :=
  if den ≤ num then (log2N (num / den).toNat : Int)
  else -(((log2N ((den - 1) / num).toNat) : Int) + 1)

/-- Round the positive rational `num / den` to the `f32` grid
(24 significand bits, round to nearest, ties to even; subnormal floor
at exponent `-126`, overflow ignored as unreachable here). -/
def ofFracPos (num den : Int) : F32 :=
  let e := max (floorLog2Frac num den) (-126)
  let k := e - 23
  if 0 ≤ k then
    ⟨roundFrac num (den * 2 ^ k.toNat), k⟩
  else
    ⟨roundFrac (num * 2 ^ (-k).toNat) den, k⟩

/-- Round the rational `num / den` (with `den > 0`) to `f32`. -/
def ofFrac (num den : Int) : F32 :=
  if num = 0 then ⟨0, 0⟩
  else if 0 < num then ofFracPos num den
  else
    let p := ofFracPos (-num) den
    ⟨-p.mantissa, p.exponent⟩

/-- `x as f32` for an integer `x` (rounds when `|x| > 2^24`). -/
def ofInt (x : Int) : F32 := ofFrac x 1

/-- The rational value `mantissa * 2 ^ exponent` as a numerator/denominator
pair with positive denominator. -/
def toFrac (a : F32) : Int × Int :=
  if 0 ≤ a.exponent then (a.mantissa * 2 ^ a.exponent.toNat, 1)
  else (a.mantissa, 2 ^ (-a.exponent).toNat)

/-- `f32` multiplication: exact product, re-rounded to the grid. -/
def mul (a b : F32) : F32 :=
  let pa := a.toFrac
  let pb := b.toFrac
  ofFrac (pa.1 * pb.1) (pa.2 * pb.2)

/-- `f32` addition: exact sum, re-rounded to the grid. -/
def add (a b : F32) : F32 :=
  let pa := a.toFrac
  let pb := b.toFrac
  ofFrac (pa.1 * pb.2 + pb.1 * pa.2) (pa.2 * pb.2)

/-- The `f32` literal `1.0`. -/
def one : F32 := ⟨1, 0⟩

/-- The `f32` literal `0.5`. -/
def half : F32 := ⟨1, -1⟩

/-- The `f32` literal `0.1` (the nearest `f32` to one tenth). -/
def tenth : F32 := ofFrac 1 10

/-- `x as i32` for an `f32` value: truncate toward zero, saturating at
the `i32` bounds. -/
def toI32 (a : F32) : Int :=
  let t : Int :=
    if 0 ≤ a.exponent then a.mantissa * 2 ^ a.exponent.toNat
    else Int.tdiv a.mantissa (2 ^ (-a.exponent).toNat)
  if t < -(2 ^ 31) then -(2 ^ 31)
  else if 2 ^ 31 - 1 < t then 2 ^ 31 - 1
  else t

end F32

namespace SagaQuests

/-- `QuestStatus` from `systems/quests.rs`. -/
inductive QuestStatus where
  | Available | Active | Completed | Failed | Abandoned | Blocked
  deriving DecidableEq, Repr

/-- `ObjectiveType` from `systems/quests.rs`. -/
inductive ObjectiveType where
  | Kill | Collect | Explore | Talk | Defend | Deliver | Discover | Puzzle
  deriving DecidableEq, Repr

/-- `QuestDifficulty` from `systems/quests.rs`. -/
inductive QuestDifficulty where
  | Trivial | Easy | Moderate | Challenging | Hard | Legendary
  deriving DecidableEq, Repr

/-- `QuestObjective` from `systems/quests.rs`. -/
structure QuestObjective where
  objective_id : String
  obj_type : ObjectiveType
  description : String
  target : String
  required_count : Int
  current_count : Int
  is_optional : Bool
  completion_reward : Int
  deriving DecidableEq, Repr

/-- `QuestObjective::is_complete`. -/
def QuestObjective.is_complete (o : QuestObjective) : Bool :=
  o.required_count ≤ o.current_count

/-- `QuestObjective::progress`: set `current_count` to
`current_count.min(required_count)` and return the (possibly wrapped)
difference `new - old`. The `_amount` argument is unused in the source. -/
def QuestObjective.progress (o : QuestObjective) (_amount : Int) :
    Int × QuestObjective :=
  let old_count := o.current_count
  let o' := { o with current_count := min o.current_count o.required_count }
  (wrap32 (o'.current_count - old_count), o')

/-- `QuestStage` from `systems/quests.rs`. -/
structure QuestStage where
  stage_id : String
  stage_number : Int
  title : String
  description : String
  objectives : List QuestObjective
  stage_reward_xp : Int
  deriving DecidableEq, Repr

/-- `QuestStage::is_complete`: all non-optional objectives complete. -/
def QuestStage.is_complete (s : QuestStage) : Bool :=
  (s.objectives.filter (fun o => !o.is_optional)).all
    (fun o => o.is_complete)

/-- `QuestReward` from `systems/quests.rs`. The `serde_json::Value`
payload of `special_rewards` is irrelevant to every claim, so it is a
string-keyed list with string values here. -/
structure QuestReward where
  experience_points : Int
  gold : Int
  items : List String
  reputation_changes : List (String × Int)
  special_rewards : List (String × String)
  deriving DecidableEq, Repr

/-- `Quest` from `systems/quests.rs`. -/
structure Quest where
  quest_id : String
  title : String
  description : String
  giver_npc : String
  quest_giver_level : Int
  difficulty : QuestDifficulty
  stages : List QuestStage
  rewards : QuestReward
  prerequisites : List String
  blocking_quests : List String
  time_limit_hours : Option Int
  status : QuestStatus
  acceptance_time : Option String
  completion_time : Option String
  current_stage_index : Nat
  is_radiant : Bool
  chain_id : Option String
  deriving DecidableEq, Repr

/-- `Quest::get_current_stage`. -/
def Quest.get_current_stage (q : Quest) : Option QuestStage :=
  q.stages.get? q.current_stage_index

/-- `Quest::advance_stage`: guard is
`current_stage_index < stages.len() - 1`, where the `usize` subtraction
wraps on an empty stage list (debug builds panic). -/
def Quest.advance_stage (q : Quest) : Bool × Quest :=
  if q.current_stage_index < usizeSub q.stages.length 1 then
    (true, { q with current_stage_index := q.current_stage_index + 1 })
  else
    (false, q)

/-- `Quest::is_complete`: on the final stage (same wrapping `usize`
subtraction) and that stage is complete. -/
def Quest.is_complete (q : Quest) : Bool :=
  decide (usizeSub q.stages.length 1 ≤ q.current_stage_index) &&
    (match q.get_current_stage with
     | some s => s.is_complete
     | none => false)

/-- `Quest::mark_complete` (timestamp passed explicitly). -/
def Quest.mark_complete (q : Quest) (now : String) : Quest :=
  { q with status := QuestStatus.Completed, completion_time := some now }

/-- `Quest::can_accept`: every prerequisite is in the completed set. -/
def Quest.can_accept (q : Quest) (completed_quests : List String) : Bool :=
  q.prerequisites.all (fun prereq => completed_quests.contains prereq)

/-- `QuestTracker` from `systems/quests.rs`. -/
structure QuestTracker where
  active_quests : List (String × Quest)
  completed_quests : List String
  failed_quests : List String
  quest_history : List (String × QuestStatus × String)
  deriving DecidableEq, Repr

/-- `QuestTracker::new`. -/
def QuestTracker.new : QuestTracker :=
  { active_quests := [], completed_quests := [], failed_quests := [],
    quest_history := [] }

/-- `QuestTracker::record_history` (timestamp passed explicitly). -/
def QuestTracker.record_history (t : QuestTracker) (quest_id : String)
    (status : QuestStatus) (now : String) : QuestTracker :=
  { t with quest_history := t.quest_history ++ [(quest_id, status, now)] }

/-- `QuestTracker::accept_quest`. -/
def QuestTracker.accept_quest (t : QuestTracker) (quest : Quest)
    (now : String) : Bool × QuestTracker :=
  if containsA t.active_quests quest.quest_id ||
      t.completed_quests.contains quest.quest_id then
    (false, t)
  else
    let quest' := { quest with status := QuestStatus.Active,
                               acceptance_time := some now }
    let quest_id := quest.quest_id
    let t' := { t with active_quests := insertA t.active_quests quest_id quest' }
    (true, t'.record_history quest_id QuestStatus.Active now)

/-- `QuestTracker::complete_quest`. Note: the source marks the quest
complete in place and then immediately removes it from the active map,
so the marked copy is discarded; and it never consults
`Quest::is_complete`. -/
def QuestTracker.complete_quest (t : QuestTracker) (quest_id : String)
    (now : String) : Bool × QuestTracker :=
  match lookupA t.active_quests quest_id with
  | some quest =>
    let _marked := quest.mark_complete now
    let t' := { t with completed_quests := insertS t.completed_quests quest_id,
                       active_quests := eraseA t.active_quests quest_id }
    (true, t'.record_history quest_id QuestStatus.Completed now)
  | none => (false, t)

/-- `QuestSystem` from `systems/quests.rs`. -/
structure QuestSystem where
  tracker : QuestTracker
  available_quests : List (String × Quest)
  deriving DecidableEq, Repr

/-- `QuestSystem::accept_quest`. -/
def QuestSystem.accept_quest (sys : QuestSystem) (quest_id : String)
    (now : String) : Except String String × QuestSystem :=
  match lookupA sys.available_quests quest_id with
  | some quest =>
    if quest.can_accept sys.tracker.completed_quests then
      let quest_clone := quest
      let title := quest.title
      match sys.tracker.accept_quest quest_clone now with
      | (true, tracker') =>
        (Except.ok ("Accepted quest: " ++ title),
         { sys with tracker := tracker',
                    available_quests := eraseA sys.available_quests quest_id })
      | (false, tracker') =>
        (Except.error "Failed to accept quest", { sys with tracker := tracker' })
    else
      (Except.error "Prerequisites not met", sys)
  | none => (Except.error "Quest not found", sys)

/-- `Quest::get_level_adjusted_rewards`: the three-branch `f32`
multiplier applied to the base experience points; every other reward
field is cloned unchanged. `level_diff` and `abs` use `i32` semantics. -/
def Quest.get_level_adjusted_rewards (q : Quest) (player_level : Int) :
    QuestReward :=
  let level_diff := sub32 player_level q.quest_giver_level
  let xp_multiplier : F32 :=
    if level_diff < 0 then
      F32.add F32.one (F32.mul (F32.ofInt (abs32 level_diff)) F32.tenth)
    else if 5 < level_diff then
      F32.half
    else
      F32.one
  { experience_points :=
      F32.toI32 (F32.mul (F32.ofInt q.rewards.experience_points) xp_multiplier),
    gold := q.rewards.gold,
    items := q.rewards.items,
    reputation_changes := q.rewards.reputation_changes,
    special_rewards := q.rewards.special_rewards }

/-- Modelled from the spec's reward-scaling rule, for comparison with the
source function: branch selection by the player's true level relative to
the giver's, with the same `f32` evaluation of each branch. -/
def specXpMultiplier (player_level giver_level : Int) : F32 :=
  if player_level < giver_level then
    F32.add F32.one (F32.mul (F32.ofInt |player_level - giver_level|) F32.tenth)
  else if giver_level + 5 < player_level then
    F32.half
  else
    F32.one

/-- An empty quest reward (the `Default` impl for `QuestReward`). -/
def QuestReward.default : QuestReward :=
  { experience_points := 0, gold := 0, items := [],
    reputation_changes := [], special_rewards := [] }

/-- `Quest::new` from `systems/quests.rs`. -/
def Quest.new (quest_id title description giver_npc : String) : Quest :=
  { quest_id := quest_id, title := title, description := description,
    giver_npc := giver_npc, quest_giver_level := 1,
    difficulty := QuestDifficulty.Moderate, stages := [],
    rewards := QuestReward.default, prerequisites := [],
    blocking_quests := [], time_limit_hours := none,
    status := QuestStatus.Available, acceptance_time := none,
    completion_time := none, current_stage_index := 0,
    is_radiant := false, chain_id := none }

/-- A one-stage quest whose single non-optional objective is unmet
(`required_count = 1`, `current_count = 0`). -/
def unmetQuest : Quest :=
  { Quest.new "q1" "Slay" "Slay the wolf" "elder" with
    status := QuestStatus.Active,
    stages := [{ stage_id := "s1", stage_number := 1, title := "Hunt",
                 description := "Hunt", stage_reward_xp := 0,
                 objectives := [{ objective_id := "o1",
                                  obj_type := ObjectiveType.Kill,
                                  description := "Kill the wolf",
                                  target := "wolf", required_count := 1,
                                  current_count := 0, is_optional := false,
                                  completion_reward := 0 }] }] }

/-- A tracker whose active map holds `unmetQuest` under its id. -/
def unmetTracker : QuestTracker :=
  { QuestTracker.new with active_quests := [("q1", unmetQuest)] }

/-- A quest with no stages at all. -/
def stagelessQuest : Quest := Quest.new "q0" "Empty" "No stages" "elder"

/-- A quest whose base experience reward is `2^24 + 1 = 16777217`, given
by a level-10 giver. -/
def bigXpQuest : Quest :=
  { Quest.new "q2" "Hoard" "A rich reward" "dragon" with
    quest_giver_level := 10,
    rewards := { QuestReward.default with experience_points := 16777217 } }

/-- A half-done collect objective (3 of 5 gathered). -/
def sampleObjective : QuestObjective :=
  { objective_id := "o2", obj_type := ObjectiveType.Collect,
    description := "Gather herbs", target := "herb", required_count := 5,
    current_count := 3, is_optional := false, completion_reward := 0 }

/-- An available quest with no prerequisites. -/
def availQuest : Quest := Quest.new "qa" "First Steps" "A first quest" "elder"

/-- A quest system offering `availQuest` and tracking nothing yet. -/
def sampleSystem : QuestSystem :=
  { tracker := QuestTracker.new, available_quests := [("qa", availQuest)] }

end SagaQuests

namespace SagaEvents

/-- `Priority` from `pyport/core/priorities.rs`; lower rank runs first. -/
inductive Priority where
  | Critical | High | Normal | Low
  deriving DecidableEq, Repr

/-- The `repr(i32)` discriminants (`Critical = 0`, `High = 10`,
`Normal = 50`, `Low = 100`); the derived `Ord` compares in this order. -/
def Priority.rank : Priority → Int
  | .Critical => 0
  | .High => 10
  | .Normal => 50
  | .Low => 100

/-- `Event` from `pyport/core/event_bus.rs`. The `cancelled` field is
private in the source: handlers reach it only through `cancel`. -/
structure Event where
  name : String
  data : List (String × Json)
  source : String
  cancellable : Bool
  cancelled : Bool

/-- `Event::new`. -/
def Event.new (name : String) (data : List (String × Json))
    (source : String) (cancellable : Bool) : Event :=
  { name := name, data := data, source := source,
    cancellable := cancellable, cancelled := false }

/-- `Event::cancel`: takes effect only on a cancellable event. -/
def Event.cancel (e : Event) : Event :=
  if e.cancellable then { e with cancelled := true } else e

/-- A handler (`Box<dyn FnMut(&mut Event)>` in the source), modelled by
what it does through the event's public interface: it may rewrite the
event's data payload and may invoke `Event::cancel`. (It does not
reassign the public `cancellable` flag, which no handler in the
repository touches.) -/
structure EvHandler where
  transform : Event → List (String × Json)
  wantsCancel : Event → Bool

/-- Apply a handler to an event: update the payload, then honour a
cancellation request through `Event::cancel`. -/
def runHandler (h : EvHandler) (e : Event) : Event :=
  let e' := { e with data := h.transform e }
  if h.wantsCancel e' then e'.cancel else e'

/-- `EventSubscription` from `pyport/core/event_bus.rs`. -/
structure EventSubscription where
  event_name : String
  plugin_name : String
  priority : Priority
  handler : EvHandler

/-- Strict comparison of `EventSubscription::sort_key` values
(`(Priority, &str)` lexicographically); `a` sorts strictly before `b`. -/
def keyLtB (a b : EventSubscription) : Bool :=
  decide (a.priority.rank < b.priority.rank) ||
    (decide (a.priority.rank = b.priority.rank) &&
     decide (a.plugin_name < b.plugin_name))

/-- Insert into a sorted list, after every element that does not sort
strictly after the new one — the stable insertion step. -/
def insertSorted (a : EventSubscription) :
    List EventSubscription → List EventSubscription
  | [] => [a]
  | b :: l => if keyLtB a b then a :: b :: l else b :: insertSorted a l

/-- Stable sort by `sort_key` (the unique stable sort, hence the same
list `Vec::sort_by` produces in the source). -/
def sortByKey (l : List EventSubscription) : List EventSubscription :=
  l.foldl (fun acc a => insertSorted a acc) []

/-- `EventBus` from `pyport/core/event_bus.rs`. -/
structure EventBus where
  subscriptions : List (String × List EventSubscription)
  wildcard_subscriptions : List EventSubscription
  enable_history : Bool
  history : List Event

/-- `EventBus::new`. -/
def EventBus.new (enable_history : Bool) : EventBus :=
  { subscriptions := [], wildcard_subscriptions := [],
    enable_history := enable_history, history := [] }

/-- `EventBus::subscribe`: push onto the wildcard list or the per-name
list, then re-sort that list stably by `sort_key`. -/
def EventBus.subscribe (bus : EventBus) (event_name : String)
    (handler : EvHandler) (priority : Priority) (plugin_name : String) :
    EventBus :=
  let subscription : EventSubscription :=
    { event_name := event_name, plugin_name := plugin_name,
      priority := priority, handler := handler }
  if event_name = "*" then
    { bus with wildcard_subscriptions :=
        sortByKey (bus.wildcard_subscriptions ++ [subscription]) }
  else
    let list := (lookupA bus.subscriptions event_name).getD []
    { bus with subscriptions :=
        (insertA bus.subscriptions event_name
          (sortByKey (list ++ [subscription]))) }

/-- The execution plan `EventBus::publish` builds for a name: specific
subscriptions then wildcards, stably sorted by `(priority, plugin_name)`
(the source sorts owned `(Priority, String, Target)` triples whose
`Target` indices resolve back to exactly these subscriptions). -/
def EventBus.plan (bus : EventBus) (event_name : String) :
    List EventSubscription :=
  sortByKey ((lookupA bus.subscriptions event_name).getD [] ++
    bus.wildcard_subscriptions)

/-- The dispatch loop of `EventBus::publish`: before each handler the
event's cancelled flag is checked and dispatch breaks if it is set.
Returns the final event and the subscriptions that actually ran. -/
def runPlan : List EventSubscription → Event →
    Event × List EventSubscription
  | [], e => (e, [])
  | s :: rest, e =>
    if e.cancelled then (e, [])
    else
      let r := runPlan rest (runHandler s.handler e)
      (r.1, s :: r.2)

/-- The outcome of `EventBus::publish`: the final event (the source's
return value), the updated bus (history push), and — as the observable
the claims speak about — the subscriptions whose handlers ran. -/
structure PublishResult where
  event : Event
  bus : EventBus
  ran : List EventSubscription

/-- `EventBus::publish`. -/
def EventBus.publish (bus : EventBus) (event_name : String)
    (data : Option (List (String × Json))) (source : String)
    (cancellable : Bool) : PublishResult :=
  let event := Event.new event_name (data.getD []) source cancellable
  let bus' :=
    if bus.enable_history then { bus with history := bus.history ++ [event] }
    else bus
  let r := runPlan (bus.plan event_name) event
  { event := r.1, bus := bus', ran := r.2 }

/-- The non-strict key order on subscriptions: `a` does not sort
strictly after `b`. -/
def keyLE (a b : EventSubscription) : Prop := keyLtB b a = false

/-- Run a list of handlers unconditionally, left to right (the
cursor-free view of dispatch used to speak about intermediate states). -/
def runHandlerSeq (l : List EventSubscription) (e : Event) : Event :=
  l.foldl (fun acc s => runHandler s.handler acc) e

/-- A handler that cancels the event and leaves the payload alone
(the `stopper` handler of the source's own test). -/
def cancelHandler : EvHandler :=
  { transform := fun e => e.data, wantsCancel := fun _ => true }

/-- A handler with no observable effect. -/
def passiveHandler : EvHandler :=
  { transform := fun e => e.data, wantsCancel := fun _ => false }

/-- The bus of the source's `cancellable_event_stops_processing` test:
a `Critical` canceller `"stopper"` and a `Low` subscriber
`"should_not_run"`, both on `"game.cancel"`. -/
def cancelBus : EventBus :=
  ((EventBus.new false).subscribe "game.cancel" cancelHandler
      Priority.Critical "stopper").subscribe "game.cancel" passiveHandler
    Priority.Low "should_not_run"

/-- The bus of the source's `handlers_run_in_priority_order` test:
passive subscribers registered `Low "z"`, then `High "a"`, then
`Critical "b"`, all on `"game.test"`. -/
def orderBus : EventBus :=
  (((EventBus.new false).subscribe "game.test" passiveHandler
        Priority.Low "z").subscribe "game.test" passiveHandler
      Priority.High "a").subscribe "game.test" passiveHandler
    Priority.Critical "b"

end SagaEvents

namespace SagaGame

/-- `Room` from `src/sagacraft_rs/src/game_state.rs` (integer ids;
`exits` maps a direction string to a destination room id). -/
structure Room where
  id : Int
  name : String
  description : String
  exits : List (String × Int)
  is_dark : Bool
  deriving DecidableEq, Repr

/-- `Room::get_exit`: the direction is lowercased before the lookup. -/
def Room.get_exit (r : Room) (direction : String) : Option Int :=
  lookupA r.exits (lowerStr direction)

/-- The part of `Player` that `move_player` touches (`current_room`);
the remaining attribute/inventory fields never influence the claims
about movement and are omitted. -/
structure Player where
  name : String
  gold : Int
  current_room : Int
  deriving DecidableEq, Repr

/-- The part of `AdventureGame` that `move_player` reads or writes:
the room map, the player and the turn counter (plus the game-over
flag). Items, monsters, systems and quest JSON are untouched by
movement and are omitted. -/
structure AdventureGame where
  rooms : List (Int × Room)
  player : Player
  turn_count : Int
  game_over : Bool
  deriving DecidableEq, Repr

/-- `AdventureGame::get_current_room`. -/
def AdventureGame.get_current_room (g : AdventureGame) : Option Room :=
  lookupA g.rooms g.player.current_room

/-- `AdventureGame::move_player`: resolve the current room, resolve the
exit (after lowercasing the direction), require the destination room to
exist, then move and bump the turn counter. -/
def AdventureGame.move_player (g : AdventureGame) (direction : String) :
    Bool × AdventureGame :=
  match g.get_current_room with
  | some room =>
    match room.get_exit direction with
    | some new_room_id =>
      if containsA g.rooms new_room_id then
        (true,
         { g with player := { g.player with current_room := new_room_id },
                  turn_count := wrap32 (g.turn_count + 1) })
      else (false, g)
    | none => (false, g)
  | none => (false, g)

/-- The claim's validated-world hypothesis: every exit destination of
every room in the map is itself a key of the map. -/
def ValidWorld (g : AdventureGame) : Prop :=
  ∀ p ∈ g.rooms, ∀ q ∈ p.2.exits, containsA g.rooms q.2 = true

/-- A room whose single exit direction is stored with a capital letter:
`"North" → 2`. -/
def capsRoom1 : Room :=
  { id := 1, name := "Village", description := "A village",
    exits := [("North", 2)], is_dark := false }

/-- A two-room world containing `capsRoom1`; every exit destination
exists, so the world is validated in the claim's sense. -/
def capsWorld : AdventureGame :=
  { rooms :=
      [(1, capsRoom1),
       (2, { id := 2, name := "Forest", description := "A forest",
             exits := [], is_dark := false })],
    player := { name := "Adventurer", gold := 200, current_room := 1 },
    turn_count := 0,
    game_over := false }

/-- The demo village room with the lowercase exit `"north" → 2`. -/
def demoRoom1 : Room :=
  { id := 1, name := "Quiet Village", description := "A village",
    exits := [("north", 2)], is_dark := false }

/-- The demo-style two-room world with lowercase exits. -/
def demoWorld : AdventureGame :=
  { rooms :=
      [(1, demoRoom1),
       (2, { id := 2, name := "Whispering Forest", description := "A forest",
             exits := [("south", 1)], is_dark := false })],
    player := { name := "Adventurer", gold := 200, current_room := 1 },
    turn_count := 0,
    game_over := false }

end SagaGame

namespace SagaAdventure

/-- `AdventureError` from `adventure.rs` (the `Io`/`Json` payloads are
represented by their messages). -/
inductive AdventureError where
  | io : String → AdventureError
  | json : String → AdventureError
  | validation : String → AdventureError
  deriving DecidableEq, Repr

/-- `AdventureItem` from `adventure.rs`. -/
structure AdventureItem where
  id : String
  name : String
  description : String
  deriving DecidableEq, Repr

/-- `AdventureRoom` from `adventure.rs` (`exits` is a `HashMap`,
modelled as its entry list). -/
structure AdventureRoom where
  id : String
  title : String
  description : String
  exits : List (String × String)
  items : List AdventureItem
  deriving DecidableEq, Repr

/-- `Adventure` from `adventure.rs`. -/
structure Adventure where
  id : String
  title : String
  start_room : String
  rooms : List AdventureRoom
  player_start_inventory : List AdventureItem
  deriving DecidableEq, Repr

/-- The room-id pass of `Adventure::validate`: reject an empty (after
trim) id or an id already seen, and accumulate the set of ids. -/
def checkRoomIds : List AdventureRoom → List String →
    Except AdventureError (List String)
  | [], ids => .ok ids
  | room :: rest, ids =>
    if trimEmpty room.id then
      .error (.validation "room.id is required")
    else if room.id ∈ ids then
      .error (.validation ("duplicate room id: " ++ room.id))
    else
      checkRoomIds rest (ids ++ [room.id])

/-- The exit checks of `Adventure::validate` for one room. -/
def checkExitsOfRoom (roomId : String) (ids : List String) :
    List (String × String) → Except AdventureError Unit
  | [] => .ok ()
  | (dir, dest) :: rest =>
    if trimEmpty dir then
      .error (.validation ("room '" ++ roomId ++ "' has an empty exit direction"))
    else if trimEmpty dest then
      .error (.validation
        ("room '" ++ roomId ++ "' exit '" ++ dir ++ "' has empty destination"))
    else if dest ∈ ids then
      checkExitsOfRoom roomId ids rest
    else
      .error (.validation ("room '" ++ roomId ++ "' exit '" ++ dir ++
        "' points to unknown room '" ++ dest ++ "'"))

/-- The exit pass of `Adventure::validate` over all rooms. -/
def checkExits (ids : List String) : List AdventureRoom →
    Except AdventureError Unit
  | [] => .ok ()
  | room :: rest =>
    match checkExitsOfRoom room.id ids room.exits with
    | .ok _ => checkExits ids rest
    | .error e => .error e

/-- `Adventure::validate`. -/
def Adventure.validate (a : Adventure) : Except AdventureError Unit :=
  if trimEmpty a.id then
    .error (.validation "adventure.id is required")
  else if trimEmpty a.title then
    .error (.validation "adventure.title is required")
  else if trimEmpty a.start_room then
    .error (.validation "adventure.start_room is required")
  else if a.rooms.isEmpty then
    .error (.validation "adventure.rooms must not be empty")
  else
    match checkRoomIds a.rooms [] with
    | .error e => .error e
    | .ok ids =>
      if a.start_room ∈ ids then checkExits ids a.rooms
      else .error (.validation ("start_room does not exist: " ++ a.start_room))

/-- Serialization of an `AdventureItem` (the serde derive: an object
with the struct's fields in declaration order). -/
def AdventureItem.toJson (it : AdventureItem) : Json :=
  .obj [("id", .str it.id), ("name", .str it.name),
        ("description", .str it.description)]

/-- Serialization of an `AdventureRoom`. -/
def AdventureRoom.toJson (r : AdventureRoom) : Json :=
  .obj [("id", .str r.id), ("title", .str r.title),
        ("description", .str r.description),
        ("exits", .obj (r.exits.map (fun p => (p.1, Json.str p.2)))),
        ("items", .arr (r.items.map AdventureItem.toJson))]

/-- Serialization of an `Adventure`. -/
def Adventure.toJson (a : Adventure) : Json :=
  .obj [("id", .str a.id), ("title", .str a.title),
        ("start_room", .str a.start_room),
        ("rooms", .arr (a.rooms.map AdventureRoom.toJson)),
        ("player_start_inventory",
         .arr (a.player_start_inventory.map AdventureItem.toJson))]

/-- Expect a JSON string (serde's deserializer for `String`). -/
def asStr : Json → Except AdventureError String
  | .str s => .ok s
  | _ => .error (.json "invalid type: expected a string")

/-- A required string field of an object (serde errors on a missing
required field). -/
def reqStr (fields : List (String × Json)) (k : String) :
    Except AdventureError String :=
  match lookupA fields k with
  | some v => asStr v
  | none => .error (.json ("missing field " ++ k))

/-- Short-circuiting elementwise deserialization of a list. -/
def mapE {α β : Type} (f : α → Except AdventureError β) :
    List α → Except AdventureError (List β)
  | [] => .ok []
  | x :: xs =>
    match f x with
    | .error e => .error e
    | .ok y =>
      match mapE f xs with
      | .error e => .error e
      | .ok ys => .ok (y :: ys)

/-- Deserialize one exit entry: the value must be a string. -/
def exitFromJson (p : String × Json) :
    Except AdventureError (String × String) :=
  match asStr p.2 with
  | .ok s => .ok (p.1, s)
  | .error e => .error e

/-- Deserialization of an `AdventureItem` (serde derive: all three
fields required; unknown fields ignored). -/
def AdventureItem.fromJson : Json → Except AdventureError AdventureItem
  | .obj fields =>
    (match reqStr fields "id" with
     | .error e => .error e
     | .ok id =>
       match reqStr fields "name" with
       | .error e => .error e
       | .ok name =>
         match reqStr fields "description" with
         | .error e => .error e
         | .ok description =>
           .ok { id := id, name := name, description := description })
  | _ => .error (.json "invalid type: expected an object")

/-- Deserialization of an `AdventureRoom` (`exits` and `items` carry
`#[serde(default)]` and default to empty when absent). -/
def AdventureRoom.fromJson : Json → Except AdventureError AdventureRoom
  | .obj fields =>
    (match reqStr fields "id" with
     | .error e => .error e
     | .ok id =>
       match reqStr fields "title" with
       | .error e => .error e
       | .ok title =>
         match reqStr fields "description" with
         | .error e => .error e
         | .ok description =>
           match
             (match lookupA fields "exits" with
              | none => .ok []
              | some (.obj ps) => mapE exitFromJson ps
              | some _ =>
                .error (.json "invalid type: expected a map")
              : Except AdventureError (List (String × String))) with
           | .error e => .error e
           | .ok exits =>
             match
               (match lookupA fields "items" with
                | none => .ok []
                | some (.arr xs) => mapE AdventureItem.fromJson xs
                | some _ =>
                  .error (.json "invalid type: expected a sequence")
                : Except AdventureError (List AdventureItem)) with
             | .error e => .error e
             | .ok items =>
               .ok { id := id, title := title, description := description,
                     exits := exits, items := items })
  | _ => .error (.json "invalid type: expected an object")

/-- Deserialization of an `Adventure` (`player_start_inventory` carries
`#[serde(default)]`). -/
def Adventure.fromJson : Json → Except AdventureError Adventure
  | .obj fields =>
    (match reqStr fields "id" with
     | .error e => .error e
     | .ok id =>
       match reqStr fields "title" with
       | .error e => .error e
       | .ok title =>
         match reqStr fields "start_room" with
         | .error e => .error e
         | .ok start_room =>
           match
             (match lookupA fields "rooms" with
              | none => .error (.json "missing field rooms")
              | some (.arr xs) => mapE AdventureRoom.fromJson xs
              | some _ =>
                .error (.json "invalid type: expected a sequence")
              : Except AdventureError (List AdventureRoom)) with
           | .error e => .error e
           | .ok rooms =>
             match
               (match lookupA fields "player_start_inventory" with
                | none => .ok []
                | some (.arr xs) => mapE AdventureItem.fromJson xs
                | some _ =>
                  .error (.json "invalid type: expected a sequence")
                : Except AdventureError (List AdventureItem)) with
             | .error e => .error e
             | .ok inv =>
               .ok { id := id, title := title, start_room := start_room,
                     rooms := rooms, player_start_inventory := inv })
  | _ => .error (.json "invalid type: expected an object")

/-- `Adventure::load_json_file`, at the document level: the filesystem
read and `serde_json::from_str` text parsing belong to the excluded I/O
layer, whose net effect on a document produced by `to_string_pretty` is
the identity on the JSON tree. Deserialize, then validate. -/
def Adventure.load_json_file (doc : Json) : Except AdventureError Adventure :=
  match Adventure.fromJson doc with
  | .error e => .error e
  | .ok adv =>
    match adv.validate with
    | .error e => .error e
    | .ok _ => .ok adv

/-- `Adventure::save_json_file`, at the document level: validate, then
serialize (the filesystem write is the excluded I/O layer). -/
def Adventure.save_json_file (a : Adventure) : Except AdventureError Json :=
  match a.validate with
  | .error e => .error e
  | .ok _ => .ok a.toJson

/-- `Adventure::demo` from `adventure.rs`. -/
def Adventure.demo : Adventure :=
  { id := "demo", title := "Demo Adventure", start_room := "village",
    rooms :=
      [{ id := "village", title := "Quiet Village",
         description :=
           "A small village with a single cobblestone path and a warm lantern glow.",
         exits := [("north", "forest")],
         items := [{ id := "key", name := "Ancient Key",
                     description := "A tarnished key that seems to hum faintly." }] },
       { id := "forest", title := "Whispering Forest",
         description := "Tall pines sway as if sharing secrets. The village lies south.",
         exits := [("south", "village")],
         items := [] }],
    player_start_inventory := [] }

/-- The claim's list of validation conditions, written from the claim:
empty (after trimming, which is what "missing/empty" means for the
whitespace-insensitive fields) adventure id / title / start-room, zero
rooms, a room with empty id, duplicate room ids, a bad exit (empty
direction, empty destination, or unknown destination room), or a start
room that is not in the room set. -/
def Adventure.hasValidationIssue (a : Adventure) : Bool :=
  trimEmpty a.id || trimEmpty a.title || trimEmpty a.start_room ||
  a.rooms.isEmpty ||
  a.rooms.any (fun r => trimEmpty r.id) ||
  !decide ((a.rooms.map (fun r => r.id)).Nodup) ||
  a.rooms.any (fun r => r.exits.any (fun p =>
    trimEmpty p.1 || trimEmpty p.2 ||
    !((a.rooms.map (fun r2 => r2.id)).contains p.2))) ||
  !((a.rooms.map (fun r => r.id)).contains a.start_room)

end SagaAdventure

open SagaQuests SagaEvents SagaGame SagaAdventure

theorem lookupA_mem {κ α : Type} [DecidableEq κ] {l : List (κ × α)} {k : κ}
    {v : α} (h : lookupA l k = some v) : (k, v) ∈ l := by
  induction l with
  | nil => simp [lookupA] at h
  | cons p rest ih =>
    obtain ⟨a, b⟩ := p
    by_cases hp : a = k
    · rw [lookupA, if_pos hp] at h
      injection h with h
      subst hp
      subst h
      exact List.mem_cons_self _ _
    · rw [lookupA, if_neg hp] at h
      exact List.mem_cons_of_mem _ (ih h)

theorem lookupA_insertA_self {κ α : Type} [DecidableEq κ]
    (l : List (κ × α)) (k : κ) (v : α) :
    lookupA (insertA l k v) k = some v := by
  induction l with
  | nil => simp [insertA, lookupA]
  | cons p rest ih =>
    by_cases hp : p.1 = k
    · rw [insertA, if_pos hp, lookupA, if_pos rfl]
    · rw [insertA, if_neg hp, lookupA, if_neg hp]
      exact ih

theorem wrap32_eq_self {x : Int} (h1 : -(2 ^ 31) ≤ x) (h2 : x < 2 ^ 31) :
    wrap32 x = x := by
  unfold wrap32
  omega

/-- C1: the spec requires `complete_quest` to succeed only when the
quest's own completion predicate holds (`Quest::is_complete`), but the
source's `QuestTracker::complete_quest` only checks membership in the
active map: for the tracker holding the active quest `"q1"` whose single
non-optional objective is unmet (`Quest.is_complete` is `false`), the
call still returns success, stamps the quest completed, moves the id
into the completed set and erases it from the active map — the source's
own user-facing failure message "not found or not completable" promises
the missing completability check. -/
theorem questC1_complete_ignores_predicate :
    (SagaQuests.QuestTracker.complete_quest unmetTracker "q1" "2024-01-01 00:00:00").1 = true ∧
    SagaQuests.Quest.is_complete unmetQuest = false ∧
    "q1" ∈ (SagaQuests.QuestTracker.complete_quest unmetTracker "q1" "2024-01-01 00:00:00").2.completed_quests ∧
    lookupA (SagaQuests.QuestTracker.complete_quest unmetTracker "q1" "2024-01-01 00:00:00").2.active_quests "q1" = none := by
  refine ⟨rfl, rfl, ?_, rfl⟩
  decide

/-- C3: `Quest::advance_stage` on a quest with an empty stage list: the
guard `current_stage_index < stages.len() - 1` underflows the `usize`
subtraction (a panic in debug builds); under release semantics the guard
passes, so the call reports success and pushes `current_stage_index` to
`1`, outside the (empty) valid stage range — not the failing no-op the
claim requires. -/
theorem questC3_advance_stage_underflow :
    stagelessQuest.stages.length = 0 ∧
    (SagaQuests.Quest.advance_stage stagelessQuest).1 = true ∧
    (SagaQuests.Quest.advance_stage stagelessQuest).2.current_stage_index = 1 := by
  refine ⟨rfl, ?_, ?_⟩ <;> decide

/-- C10: `QuestObjective::progress` never advances an objective: the new
`current_count` is `min old required` (so never larger than the old
value, and the only field that changes), and whenever the old count was
already at most `required_count` the objective is returned unchanged
with result `0`, whatever `amount` was passed. -/
theorem questC10_progress_never_advances (o : QuestObjective) (amount : Int) :
    (o.progress amount).2.current_count = min o.current_count o.required_count ∧
    (o.progress amount).2.current_count ≤ o.current_count ∧
    (o.progress amount).2 =
      { o with current_count := min o.current_count o.required_count } ∧
    (o.current_count ≤ o.required_count →
      (o.progress amount).1 = 0 ∧ (o.progress amount).2 = o) := by
  refine ⟨rfl, min_le_left _ _, rfl, fun h => ?_⟩
  have hmin : min o.current_count o.required_count = o.current_count :=
    min_eq_left h
  constructor
  · show wrap32 (min o.current_count o.required_count - o.current_count) = 0
    rw [hmin]
    simp [wrap32]
  · show ({ o with current_count := min o.current_count o.required_count } :
        QuestObjective) = o
    rw [hmin]

theorem questC10_witness :
    sampleObjective.current_count ≤ sampleObjective.required_count ∧
    (sampleObjective.progress 7).1 = 0 ∧
    (sampleObjective.progress 7).2 = sampleObjective :=
  ⟨by decide,
   ((questC10_progress_never_advances sampleObjective 7).2.2.2 (by decide)).1,
   ((questC10_progress_never_advances sampleObjective 7).2.2.2 (by decide)).2⟩

theorem keyLtB_eq_true_iff {a b : EventSubscription} :
    keyLtB a b = true ↔
      (a.priority.rank < b.priority.rank ∨
       (a.priority.rank = b.priority.rank ∧ a.plugin_name < b.plugin_name)) := by
  simp [keyLtB, Bool.or_eq_true, Bool.and_eq_true, decide_eq_true_eq]

theorem keyLE_iff {a b : EventSubscription} :
    keyLE a b ↔
      (a.priority.rank < b.priority.rank ∨
       (a.priority.rank = b.priority.rank ∧ a.plugin_name ≤ b.plugin_name)) := by
  unfold keyLE
  rw [Bool.eq_false_iff, Ne, keyLtB_eq_true_iff]
  push_neg
  constructor
  · rintro ⟨h1, h2⟩
    rcases lt_or_eq_of_le h1 with hlt | heq
    · exact Or.inl hlt
    · exact Or.inr ⟨heq, h2 heq.symm⟩
  · rintro (hlt | ⟨heq, hle⟩)
    · exact ⟨le_of_lt hlt, fun he => absurd he.symm (ne_of_lt hlt)⟩
    · exact ⟨le_of_eq heq, fun _ => hle⟩

theorem keyLE_of_lt {a b : EventSubscription} (h : keyLtB a b = true) :
    keyLE a b := by
  rw [keyLtB_eq_true_iff] at h
  rw [keyLE_iff]
  rcases h with hlt | ⟨heq, hlt⟩
  · exact Or.inl hlt
  · exact Or.inr ⟨heq, le_of_lt hlt⟩

theorem keyLE_of_not_lt {a b : EventSubscription} (h : keyLtB a b = false) :
    keyLE b a := h

theorem keyLE_trans {a b c : EventSubscription} (h1 : keyLE a b)
    (h2 : keyLE b c) : keyLE a c := by
  rw [keyLE_iff] at h1 h2 ⊢
  rcases h1 with p1 | ⟨e1, n1⟩ <;> rcases h2 with p2 | ⟨e2, n2⟩
  · exact Or.inl (lt_trans p1 p2)
  · exact Or.inl (lt_of_lt_of_le p1 (le_of_eq e2))
  · exact Or.inl (lt_of_le_of_lt (le_of_eq e1) p2)
  · exact Or.inr ⟨e1.trans e2, le_trans n1 n2⟩

theorem insertSorted_perm (a : EventSubscription) (l : List EventSubscription) :
    (insertSorted a l).Perm (a :: l) := by
  induction l with
  | nil => exact List.Perm.refl _
  | cons b l ih =>
    by_cases h : keyLtB a b = true
    · rw [insertSorted, if_pos h]
    · rw [insertSorted, if_neg h]
      exact (ih.cons b).trans (List.Perm.swap a b l)

theorem pairwise_insertSorted (a : EventSubscription)
    {l : List EventSubscription} (h : l.Pairwise keyLE) :
    (insertSorted a l).Pairwise keyLE := by
  induction l with
  | nil => simp [insertSorted]
  | cons b l ih =>
    rcases List.pairwise_cons.mp h with ⟨hb, hl⟩
    by_cases hab : keyLtB a b = true
    · rw [insertSorted, if_pos hab]
      refine List.pairwise_cons.mpr ⟨?_, h⟩
      intro x hx
      rcases List.mem_cons.mp hx with rfl | hx
      · exact keyLE_of_lt hab
      · exact keyLE_trans (keyLE_of_lt hab) (hb x hx)
    · rw [insertSorted, if_neg hab]
      refine List.pairwise_cons.mpr ⟨?_, ih hl⟩
      intro x hx
      have hx' := ((insertSorted_perm a l).mem_iff).mp hx
      rcases List.mem_cons.mp hx' with rfl | hx'
      · exact keyLE_of_not_lt (Bool.eq_false_iff.mpr hab)
      · exact hb x hx'

theorem foldl_insertSorted_perm (l acc : List EventSubscription) :
    (l.foldl (fun acc a => insertSorted a acc) acc).Perm (acc ++ l) := by
  induction l generalizing acc with
  | nil => simp
  | cons a l ih =>
    have step : (insertSorted a acc ++ l).Perm (acc ++ a :: l) :=
      ((insertSorted_perm a acc).append_right l).trans
        List.perm_middle.symm
    exact (ih (insertSorted a acc)).trans step

theorem sortByKey_perm (l : List EventSubscription) : (sortByKey l).Perm l :=
  foldl_insertSorted_perm l []

theorem foldl_insertSorted_pairwise (l acc : List EventSubscription)
    (h : acc.Pairwise keyLE) :
    (l.foldl (fun acc a => insertSorted a acc) acc).Pairwise keyLE := by
  induction l generalizing acc with
  | nil => exact h
  | cons a l ih => exact ih _ (pairwise_insertSorted a h)

theorem sortByKey_pairwise (l : List EventSubscription) :
    (sortByKey l).Pairwise keyLE :=
  foldl_insertSorted_pairwise l [] (List.Pairwise.nil)

theorem runHandler_cancellable (h : EvHandler) (e : Event) :
    (runHandler h e).cancellable = e.cancellable := by
  unfold runHandler Event.cancel
  by_cases hw : h.wantsCancel { e with data := h.transform e } = true
  · rw [if_pos hw]
    by_cases hc : e.cancellable <;> simp [hc]
  · rw [if_neg hw]

theorem runHandler_cancelled_of_not_cancellable (h : EvHandler) (e : Event)
    (hc : e.cancellable = false) :
    (runHandler h e).cancelled = e.cancelled := by
  unfold runHandler Event.cancel
  by_cases hw : h.wantsCancel { e with data := h.transform e } = true
  · rw [if_pos hw]
    simp [hc]
  · rw [if_neg hw]

theorem runPlan_spec (l : List EventSubscription) (e : Event) :
    (runPlan l e).2 = l.take (runPlan l e).2.length ∧
    (runPlan l e).1 = runHandlerSeq (runPlan l e).2 e ∧
    ((runPlan l e).2 ≠ l → (runPlan l e).1.cancelled = true) ∧
    (∀ k, k < (runPlan l e).2.length →
      (runHandlerSeq ((runPlan l e).2.take k) e).cancelled = false) := by
  induction l generalizing e with
  | nil =>
    refine ⟨rfl, rfl, fun hne => absurd rfl hne, fun k hk => ?_⟩
    simp [runPlan] at hk
  | cons s rest ih =>
    by_cases h : e.cancelled = true
    · have hr : runPlan (s :: rest) e = (e, []) := by
        rw [runPlan, if_pos h]
      rw [hr]
      exact ⟨rfl, rfl, fun _ => h, fun k hk => absurd hk (by simp)⟩
    · have h' : e.cancelled = false := Bool.eq_false_iff.mpr h
      have hr : runPlan (s :: rest) e =
          ((runPlan rest (runHandler s.handler e)).1,
           s :: (runPlan rest (runHandler s.handler e)).2) := by
        rw [runPlan, if_neg h]
      obtain ⟨i1, i2, i3, i4⟩ := ih (runHandler s.handler e)
      rw [hr]
      refine ⟨?_, ?_, ?_, ?_⟩
      · show s :: (runPlan rest (runHandler s.handler e)).2 =
          (s :: rest).take (s :: (runPlan rest (runHandler s.handler e)).2).length
        simp only [List.length_cons, List.take_succ_cons]
        rw [← i1]
      · exact i2
      · intro hne
        refine i3 fun hh => hne ?_
        rw [hh]
      · intro k hk
        match k with
        | 0 => exact h'
        | j + 1 =>
          simp only [List.take_succ_cons]
          show (runHandlerSeq ((runPlan rest (runHandler s.handler e)).2.take j)
            (runHandler s.handler e)).cancelled = false
          exact i4 j (by simpa using hk)

theorem runPlan_not_cancellable (l : List EventSubscription) (e : Event)
    (hc : e.cancellable = false) (h0 : e.cancelled = false) :
    (runPlan l e).1.cancelled = false ∧ (runPlan l e).2 = l := by
  induction l generalizing e with
  | nil => exact ⟨h0, rfl⟩
  | cons s rest ih =>
    have h : ¬(e.cancelled = true) := by rw [h0]; exact Bool.false_ne_true
    have hr : runPlan (s :: rest) e =
        ((runPlan rest (runHandler s.handler e)).1,
         s :: (runPlan rest (runHandler s.handler e)).2) := by
      rw [runPlan, if_neg h]
    have hc' : (runHandler s.handler e).cancellable = false := by
      rw [runHandler_cancellable, hc]
    have h0' : (runHandler s.handler e).cancelled = false := by
      rw [runHandler_cancelled_of_not_cancellable s.handler e hc, h0]
    obtain ⟨j1, j2⟩ := ih (runHandler s.handler e) hc' h0'
    rw [hr]
    exact ⟨j1, by rw [j2]⟩

/-- C5: cancellation semantics of `EventBus::publish`. For every
publish: (i) the handlers that run form a prefix of the combined
execution plan; (ii) a run that stops before exhausting the plan does so
only because the event got cancelled; (iii) every handler that did run
was invoked on a not-yet-cancelled event (so once a handler cancels a
cancellable event, no later specific or wildcard handler runs); and
(iv) a non-cancellable event can never end up cancelled — `cancel` is
ignored — and every planned handler runs. -/
theorem evtC5_cancellation (bus : EventBus) (event_name : String)
    (data : Option (List (String × Json))) (source : String)
    (cancellable : Bool) :
    (∃ k, (bus.publish event_name data source cancellable).ran =
      (bus.plan event_name).take k) ∧
    ((bus.publish event_name data source cancellable).ran ≠ bus.plan event_name →
      (bus.publish event_name data source cancellable).event.cancelled = true) ∧
    (∀ k, k < (bus.publish event_name data source cancellable).ran.length →
      (runHandlerSeq ((bus.publish event_name data source cancellable).ran.take k)
        (Event.new event_name (data.getD []) source cancellable)).cancelled =
        false) ∧
    (cancellable = false →
      (bus.publish event_name data source cancellable).event.cancelled = false ∧
      (bus.publish event_name data source cancellable).ran =
        bus.plan event_name) := by
  obtain ⟨s1, _s2, s3, s4⟩ :=
    runPlan_spec (bus.plan event_name)
      (Event.new event_name (data.getD []) source cancellable)
  refine ⟨⟨_, s1⟩, s3, s4, fun hc => ?_⟩
  subst hc
  exact runPlan_not_cancellable _ _ rfl rfl

theorem evtC5_witness :
    (cancelBus.publish "game.cancel" none "system" false).event.cancelled =
      false ∧
    (cancelBus.publish "game.cancel" none "system" false).ran =
      cancelBus.plan "game.cancel" :=
  (evtC5_cancellation cancelBus "game.cancel" none "system" false).2.2.2 rfl

/-- C2 counterexample: the claim asserts that every publish runs exactly
the subscriptions registered for the name (plus wildcards). On the bus
of the source's own cancellation test — a `Critical` canceller
`"stopper"` and a `Low` subscriber `"should_not_run"`, both registered
for `"game.cancel"` — a cancellable publish runs only `"stopper"`, even
though the combined plan contains both subscriptions: cancellation cuts
the dispatch short, so the claim is false as stated for such publishes. -/
theorem evtC2_counterexample :
    ((cancelBus.publish "game.cancel" none "system" true).ran.map
      (fun s => s.plugin_name)) = ["stopper"] ∧
    ((cancelBus.plan "game.cancel").map (fun s => s.plugin_name)) =
      ["stopper", "should_not_run"] ∧
    (cancelBus.publish "game.cancel" none "system" true).event.cancelled =
      true :=
  ⟨rfl, rfl, rfl⟩

/-- C2 (amended): for every publish that is not cancelled mid-dispatch
(in particular every publish of a non-cancellable event, or one where no
handler cancels), the handlers that run are exactly the subscriptions
registered for the event name together with the wildcard subscriptions
(a permutation of their concatenation), executed in ascending
`(priority rank, subscriber id)` order — wildcards interleaved in the
one combined order, and the order independent of registration order
because it is characterized by sortedness of that key alone. -/
theorem evtC2_amended (bus : EventBus) (event_name : String)
    (data : Option (List (String × Json))) (source : String)
    (cancellable : Bool)
    (h : (bus.publish event_name data source cancellable).event.cancelled =
      false) :
    (bus.publish event_name data source cancellable).ran.Perm
      ((lookupA bus.subscriptions event_name).getD [] ++
        bus.wildcard_subscriptions) ∧
    (bus.publish event_name data source cancellable).ran.Pairwise keyLE := by
  obtain ⟨_s1, _s2, s3, _s4⟩ :=
    runPlan_spec (bus.plan event_name)
      (Event.new event_name (data.getD []) source cancellable)
  have hev : (bus.publish event_name data source cancellable).event =
      (runPlan (bus.plan event_name)
        (Event.new event_name (data.getD []) source cancellable)).1 := rfl
  have hrn : (bus.publish event_name data source cancellable).ran =
      (runPlan (bus.plan event_name)
        (Event.new event_name (data.getD []) source cancellable)).2 := rfl
  rw [hev] at h
  rw [hrn]
  have hran : (runPlan (bus.plan event_name)
      (Event.new event_name (data.getD []) source cancellable)).2 =
      bus.plan event_name := by
    by_contra hne
    have := s3 hne
    rw [this] at h
    simp at h
  rw [hran]
  exact ⟨sortByKey_perm _, sortByKey_pairwise _⟩

theorem evtC2_witness :
    (orderBus.publish "game.test" none "system" false).event.cancelled =
      false ∧
    ((orderBus.publish "game.test" none "system" false).ran.map
      (fun s => s.plugin_name)) = ["b", "a", "z"] ∧
    (orderBus.publish "game.test" none "system" false).ran.Pairwise keyLE :=
  ⟨rfl, rfl,
   (evtC2_amended orderBus "game.test" none "system" false rfl).2⟩

/-- C9 counterexample: in a validated world whose room-1 exit map stores
the direction under the key `"North"`, the direction `"North"` is in the
room's exits, yet `move_player("North")` fails and leaves the state
unchanged — `Room::get_exit` lowercases the query before the lookup, so
the stored mixed-case key can never match. The claim's "if D is in R's
exits then move succeeds" is therefore false as stated. -/
theorem gameC9_counterexample :
    ValidWorld capsWorld ∧
    lookupA capsWorld.rooms capsWorld.player.current_room = some capsRoom1 ∧
    ("North", (2 : Int)) ∈ capsRoom1.exits ∧
    capsWorld.move_player "North" = (false, capsWorld) := by
  refine ⟨by unfold ValidWorld; decide, rfl, by decide, rfl⟩

/-- C9 (amended): in a validated world (every exit destination resolves
to an existing room), with the player occupying room `R`: if the
lowercased direction is a key of `R`'s exits then `move_player` succeeds
and sets the current room to the declared destination (bumping the turn
counter); if the lowercased direction is not a key of `R`'s exits then
`move_player` fails and the game state is unchanged. -/
theorem gameC9_amended (g : AdventureGame) (R : Room) (D : String)
    (hv : ValidWorld g)
    (hR : lookupA g.rooms g.player.current_room = some R) :
    (∀ dest, lookupA R.exits (lowerStr D) = some dest →
      g.move_player D =
        (true, { g with
                 player := { g.player with current_room := dest },
                 turn_count := wrap32 (g.turn_count + 1) })) ∧
    (lookupA R.exits (lowerStr D) = none → g.move_player D = (false, g)) := by
  constructor
  · intro dest hdest
    have hmem : (g.player.current_room, R) ∈ g.rooms := lookupA_mem hR
    have hexit : (lowerStr D, dest) ∈ R.exits := lookupA_mem hdest
    have hcontains : containsA g.rooms dest = true := hv _ hmem _ hexit
    simp [AdventureGame.move_player, AdventureGame.get_current_room,
      Room.get_exit, hR, hdest, hcontains]
  · intro hnone
    simp [AdventureGame.move_player, AdventureGame.get_current_room,
      Room.get_exit, hR, hnone]

theorem gameC9_witness :
    ValidWorld demoWorld ∧
    lookupA demoWorld.rooms demoWorld.player.current_room = some demoRoom1 ∧
    demoWorld.move_player "north" =
      (true, { demoWorld with
               player := { demoWorld.player with current_room := 2 },
               turn_count := wrap32 (demoWorld.turn_count + 1) }) :=
  ⟨by unfold ValidWorld; decide, rfl,
   (gameC9_amended demoWorld demoRoom1 "north"
     (by unfold ValidWorld; decide) rfl).1 2 rfl⟩

/-- C6: `QuestSystem::accept_quest` for a quest found in the available
pool. If some prerequisite id of the quest is not in the tracker's
completed set, the call fails with the "Prerequisites not met" error and
changes nothing. If every prerequisite is completed and the quest is not
already active or completed, the call succeeds with the acceptance
message, removes the quest from the available pool, places it in the
tracker's active map stamped `Active` with the acceptance timestamp,
appends one `(id, Active, timestamp)` history record, and leaves the
completed set unchanged. -/
theorem questC6_accept (sys : QuestSystem) (quest_id now : String)
    (q : Quest)
    (hfound : lookupA sys.available_quests quest_id = some q) :
    ((∃ p ∈ q.prerequisites, p ∉ sys.tracker.completed_quests) →
      sys.accept_quest quest_id now =
        (Except.error "Prerequisites not met", sys)) ∧
    ((∀ p ∈ q.prerequisites, p ∈ sys.tracker.completed_quests) →
      lookupA sys.tracker.active_quests q.quest_id = none →
      q.quest_id ∉ sys.tracker.completed_quests →
      (sys.accept_quest quest_id now).1 =
        Except.ok ("Accepted quest: " ++ q.title) ∧
      (sys.accept_quest quest_id now).2.available_quests =
        eraseA sys.available_quests quest_id ∧
      lookupA (sys.accept_quest quest_id now).2.tracker.active_quests
          q.quest_id =
        some { q with status := QuestStatus.Active, acceptance_time := some now } ∧
      (sys.accept_quest quest_id now).2.tracker.quest_history =
        sys.tracker.quest_history ++ [(q.quest_id, QuestStatus.Active, now)] ∧
      (sys.accept_quest quest_id now).2.tracker.completed_quests =
        sys.tracker.completed_quests) := by
  have hca : ∀ c : List String,
      (q.can_accept c = true ↔ ∀ p ∈ q.prerequisites, p ∈ c) := by
    intro c
    simp [Quest.can_accept, List.all_eq_true]
  constructor
  · rintro ⟨p, hp, hnp⟩
    have hcan : q.can_accept sys.tracker.completed_quests = false := by
      rw [Bool.eq_false_iff]
      intro hc
      exact hnp ((hca _).mp hc p hp)
    simp [QuestSystem.accept_quest, hfound, hcan]
  · intro hall hact hcomp
    have hcan : q.can_accept sys.tracker.completed_quests = true :=
      (hca _).mpr hall
    have hcontA : containsA sys.tracker.active_quests q.quest_id = false := by
      simp [containsA, hact]
    have hcontC : sys.tracker.completed_quests.contains q.quest_id = false := by
      rw [Bool.eq_false_iff]
      intro hc
      exact hcomp (List.elem_iff.mp hc)
    simp [QuestSystem.accept_quest, QuestTracker.accept_quest,
      QuestTracker.record_history, hfound, hcan, hcontA, hcontC, hcomp,
      lookupA_insertA_self]

theorem questC6_witness :
    lookupA sampleSystem.available_quests "qa" = some availQuest ∧
    (sampleSystem.accept_quest "qa" "2024-01-01 00:00:00").1 =
      Except.ok ("Accepted quest: " ++ availQuest.title) ∧
    lookupA (sampleSystem.accept_quest "qa"
        "2024-01-01 00:00:00").2.tracker.active_quests availQuest.quest_id =
      some { availQuest with status := QuestStatus.Active, acceptance_time := some "2024-01-01 00:00:00" } := by
  have h := (questC6_accept sampleSystem "qa" "2024-01-01 00:00:00" availQuest
      rfl).2 (by intro p hp; simp [availQuest, Quest.new] at hp) rfl
    (by decide)
  exact ⟨rfl, h.1, h.2.2.1⟩

/-- C8 counterexample: the claim's exact equality "experience equals
base XP times the multiplier" fails because the source computes in
`f32`. With equal player and giver levels the multiplier is exactly
`1.0`, yet a base reward of `2^24 + 1 = 16777217` comes back as
`16777216`: `16777217 as f32` rounds to `2^24` (ties-to-even at 24
significand bits) before the multiplication and truncation. -/
theorem questC8_counterexample :
    bigXpQuest.quest_giver_level = 10 ∧
    bigXpQuest.rewards.experience_points = 16777217 ∧
    (bigXpQuest.get_level_adjusted_rewards 10).experience_points =
      16777216 ∧
    (bigXpQuest.get_level_adjusted_rewards 10).experience_points ≠
      bigXpQuest.rewards.experience_points * 1 := by
  refine ⟨rfl, rfl, by decide, by decide⟩

/-- C8 (amended): for every quest and player level whose `i32` level
difference does not overflow, `get_level_adjusted_rewards` returns the
gold, item, reputation and special rewards unscaled, and an experience
reward equal to the `f32` product of the base XP (converted to `f32`,
which may round) with the three-branch multiplier — `1 + 0.1·|diff|`
evaluated in `f32` when the player is below the giver, exactly `0.5`
when the player is more than 5 levels above the giver, and exactly
`1.0` otherwise — truncated toward zero to an `i32`. -/
theorem questC8_amended (q : Quest) (player_level : Int)
    (h1 : -(2 ^ 31) < player_level - q.quest_giver_level)
    (h2 : player_level - q.quest_giver_level < 2 ^ 31) :
    (q.get_level_adjusted_rewards player_level).gold = q.rewards.gold ∧
    (q.get_level_adjusted_rewards player_level).items = q.rewards.items ∧
    (q.get_level_adjusted_rewards player_level).reputation_changes =
      q.rewards.reputation_changes ∧
    (q.get_level_adjusted_rewards player_level).special_rewards =
      q.rewards.special_rewards ∧
    (q.get_level_adjusted_rewards player_level).experience_points =
      F32.toI32 (F32.mul (F32.ofInt q.rewards.experience_points)
        (specXpMultiplier player_level q.quest_giver_level)) := by
  refine ⟨rfl, rfl, rfl, rfl, ?_⟩
  have hsub : sub32 player_level q.quest_giver_level =
      player_level - q.quest_giver_level :=
    wrap32_eq_self (le_of_lt h1) h2
  have habs : abs32 (player_level - q.quest_giver_level) =
      |player_level - q.quest_giver_level| :=
    wrap32_eq_self
      (le_trans (by norm_num) (abs_nonneg (player_level - q.quest_giver_level)))
      (abs_lt.mpr ⟨h1, h2⟩)
  have e1 : (player_level - q.quest_giver_level < 0) =
      (player_level < q.quest_giver_level) := by
    apply propext
    constructor <;> intro <;> omega
  have e2 : (5 < player_level - q.quest_giver_level) =
      (q.quest_giver_level + 5 < player_level) := by
    apply propext
    constructor <;> intro <;> omega
  simp only [Quest.get_level_adjusted_rewards, specXpMultiplier, hsub, habs,
    e1, e2]

theorem questC8_witness :
    -(2 ^ 31) < (12 : Int) - bigXpQuest.quest_giver_level ∧
    (12 : Int) - bigXpQuest.quest_giver_level < 2 ^ 31 ∧
    (bigXpQuest.get_level_adjusted_rewards 12).gold = bigXpQuest.rewards.gold ∧
    (bigXpQuest.get_level_adjusted_rewards 12).experience_points =
      F32.toI32 (F32.mul (F32.ofInt bigXpQuest.rewards.experience_points)
        (specXpMultiplier 12 bigXpQuest.quest_giver_level)) :=
  ⟨by decide, by decide,
   (questC8_amended bigXpQuest 12 (by decide) (by decide)).1,
   (questC8_amended bigXpQuest 12 (by decide) (by decide)).2.2.2.2⟩

theorem itemFromJson_toJson (it : AdventureItem) :
    AdventureItem.fromJson it.toJson = Except.ok it := rfl

theorem mapE_items_roundtrip (l : List AdventureItem) :
    mapE AdventureItem.fromJson (l.map AdventureItem.toJson) =
      Except.ok l := by
  induction l with
  | nil => rfl
  | cons x xs ih => simp [mapE, itemFromJson_toJson, ih]

theorem mapE_exits_roundtrip (l : List (String × String)) :
    mapE exitFromJson (l.map (fun p => (p.1, Json.str p.2))) =
      Except.ok l := by
  induction l with
  | nil => rfl
  | cons x xs ih => simp [mapE, exitFromJson, asStr, ih]

theorem roomFromJson_toJson (r : AdventureRoom) :
    AdventureRoom.fromJson r.toJson = Except.ok r := by
  simp [AdventureRoom.fromJson, AdventureRoom.toJson, reqStr, lookupA, asStr,
    mapE_exits_roundtrip, mapE_items_roundtrip]

theorem mapE_rooms_roundtrip (l : List AdventureRoom) :
    mapE AdventureRoom.fromJson (l.map AdventureRoom.toJson) =
      Except.ok l := by
  induction l with
  | nil => rfl
  | cons x xs ih => simp [mapE, roomFromJson_toJson, ih]

theorem adventureFromJson_toJson (a : Adventure) :
    Adventure.fromJson a.toJson = Except.ok a := by
  simp [Adventure.fromJson, Adventure.toJson, reqStr, lookupA, asStr,
    mapE_rooms_roundtrip, mapE_items_roundtrip]

/-- C4: save/load round-trip. For every document that loads (parses and
validates) to an Adventure `a`, saving `a` succeeds and produces the
serialized document, and loading that document yields an Adventure equal
to `a` — so load, save, load reproduces an equal model. (Maps are
association lists here, so "equal modulo map key ordering" is plain
equality.) -/
theorem advC4_save_load_roundtrip (doc : Json) (a : Adventure)
    (h : Adventure.load_json_file doc = Except.ok a) :
    Adventure.save_json_file a = Except.ok a.toJson ∧
    Adventure.load_json_file a.toJson = Except.ok a := by
  have hval : a.validate = Except.ok () := by
    unfold Adventure.load_json_file at h
    revert h
    cases hf : Adventure.fromJson doc with
    | error e => intro h; simp at h
    | ok adv =>
      cases hv : adv.validate with
      | error e => intro h; simp [hv] at h
      | ok u =>
        intro h
        cases u
        simp [hv] at h
        subst h
        exact hv
  constructor
  · simp [Adventure.save_json_file, hval]
  · simp [Adventure.load_json_file, adventureFromJson_toJson a, hval]

theorem advC4_witness :
    Adventure.load_json_file Adventure.demo.toJson =
      Except.ok Adventure.demo ∧
    Adventure.save_json_file Adventure.demo =
      Except.ok Adventure.demo.toJson :=
  ⟨rfl,
   (advC4_save_load_roundtrip Adventure.demo.toJson Adventure.demo rfl).1⟩

theorem checkRoomIds_shape (rooms : List AdventureRoom) (seen : List String) :
    checkRoomIds rooms seen =
      Except.ok (seen ++ rooms.map (fun r => r.id)) ∨
    ∃ msg, checkRoomIds rooms seen =
      Except.error (AdventureError.validation msg) := by
  induction rooms generalizing seen with
  | nil => left; simp [checkRoomIds]
  | cons room rest ih =>
    by_cases h1 : trimEmpty room.id
    · right
      exact ⟨"room.id is required", by simp [checkRoomIds, h1]⟩
    · by_cases h2 : room.id ∈ seen
      · right
        exact ⟨"duplicate room id: " ++ room.id,
          by simp [checkRoomIds, h1, h2]⟩
      · rcases ih (seen ++ [room.id]) with hok | ⟨msg, herr⟩
        · left
          rw [checkRoomIds, if_neg (by simp [h1]), if_neg h2, hok]
          simp
        · right
          exact ⟨msg, by rw [checkRoomIds, if_neg (by simp [h1]),
            if_neg h2, herr]⟩

theorem checkRoomIds_ok_iff (rooms : List AdventureRoom)
    (seen : List String) :
    (∃ ids, checkRoomIds rooms seen = Except.ok ids) ↔
      ((∀ r ∈ rooms, trimEmpty r.id = false) ∧
       (rooms.map (fun r => r.id)).Nodup ∧
       ∀ x ∈ rooms.map (fun r => r.id), x ∉ seen) := by
  induction rooms generalizing seen with
  | nil => simp [checkRoomIds]
  | cons room rest ih =>
    by_cases h1 : trimEmpty room.id
    · simp [checkRoomIds, h1]
    · by_cases h2 : room.id ∈ seen
      · simp [checkRoomIds, h1, h2]
      · rw [checkRoomIds, if_neg (by simp [h1]), if_neg h2]
        rw [ih (seen ++ [room.id])]
        constructor
        · rintro ⟨ha, hb, hc⟩
          refine ⟨?_, ?_, ?_⟩
          · intro r hr
            rcases List.mem_cons.mp hr with rfl | hr'
            · exact Bool.eq_false_iff.mpr h1
            · exact ha r hr'
          · rw [List.map_cons]
            refine List.nodup_cons.mpr ⟨?_, hb⟩
            intro hmem
            exact hc room.id hmem
              (List.mem_append.mpr (Or.inr (List.mem_singleton.mpr rfl)))
          · intro x hx
            rw [List.map_cons] at hx
            rcases List.mem_cons.mp hx with rfl | hx'
            · exact h2
            · intro hxseen
              exact hc x hx' (List.mem_append.mpr (Or.inl hxseen))
        · rintro ⟨ha, hb, hc⟩
          rw [List.map_cons] at hb
          obtain ⟨hb1, hb2⟩ := List.nodup_cons.mp hb
          refine ⟨?_, hb2, ?_⟩
          · intro r hr
            exact ha r (List.mem_cons_of_mem room hr)
          · intro x hx hxmem
            rcases List.mem_append.mp hxmem with hxseen | hxid
            · refine hc x ?_ hxseen
              rw [List.map_cons]
              exact List.mem_cons_of_mem room.id hx
            · rw [List.mem_singleton] at hxid
              subst hxid
              exact hb1 hx

theorem checkExitsOfRoom_shape (roomId : String) (ids : List String)
    (exits : List (String × String)) :
    checkExitsOfRoom roomId ids exits = Except.ok () ∨
    ∃ msg, checkExitsOfRoom roomId ids exits =
      Except.error (AdventureError.validation msg) := by
  induction exits with
  | nil => left; rfl
  | cons p rest ih =>
    obtain ⟨dir, dest⟩ := p
    by_cases h1 : trimEmpty dir
    · right
      exact ⟨"room '" ++ roomId ++ "' has an empty exit direction",
        by simp [checkExitsOfRoom, h1]⟩
    · by_cases h2 : trimEmpty dest
      · right
        exact ⟨"room '" ++ roomId ++ "' exit '" ++ dir ++
          "' has empty destination", by simp [checkExitsOfRoom, h1, h2]⟩
      · by_cases h3 : dest ∈ ids
        · rcases ih with hok | ⟨msg, herr⟩
          · left
            rw [checkExitsOfRoom, if_neg (by simp [h1]),
              if_neg (by simp [h2]), if_pos h3]
            exact hok
          · right
            refine ⟨msg, ?_⟩
            rw [checkExitsOfRoom, if_neg (by simp [h1]),
              if_neg (by simp [h2]), if_pos h3]
            exact herr
        · right
          exact ⟨"room '" ++ roomId ++ "' exit '" ++ dir ++
            "' points to unknown room '" ++ dest ++ "'",
            by simp [checkExitsOfRoom, h1, h2, h3]⟩

theorem checkExitsOfRoom_ok_iff (roomId : String) (ids : List String)
    (exits : List (String × String)) :
    checkExitsOfRoom roomId ids exits = Except.ok () ↔
      ∀ p ∈ exits, trimEmpty p.1 = false ∧ trimEmpty p.2 = false ∧
        p.2 ∈ ids := by
  induction exits with
  | nil => simp [checkExitsOfRoom]
  | cons p rest ih =>
    obtain ⟨dir, dest⟩ := p
    by_cases h1 : trimEmpty dir
    · simp [checkExitsOfRoom, h1]
    · by_cases h2 : trimEmpty dest
      · simp [checkExitsOfRoom, h1, h2]
      · by_cases h3 : dest ∈ ids
        · rw [checkExitsOfRoom, if_neg (by simp [h1]),
            if_neg (by simp [h2]), if_pos h3, ih]
          constructor
          · intro hall
            intro q hq
            rcases List.mem_cons.mp hq with rfl | hq'
            · exact ⟨Bool.eq_false_iff.mpr h1, Bool.eq_false_iff.mpr h2, h3⟩
            · exact hall q hq'
          · intro hall q hq
            exact hall q (List.mem_cons_of_mem _ hq)
        · rw [checkExitsOfRoom, if_neg (by simp [h1]),
            if_neg (by simp [h2]), if_neg h3]
          constructor
          · intro hbad
            exact absurd hbad (by simp)
          · intro hall
            exact absurd (hall (dir, dest) (List.mem_cons_self _ _)).2.2 h3

theorem checkExits_shape (ids : List String) (rooms : List AdventureRoom) :
    checkExits ids rooms = Except.ok () ∨
    ∃ msg, checkExits ids rooms =
      Except.error (AdventureError.validation msg) := by
  induction rooms with
  | nil => left; rfl
  | cons room rest ih =>
    rcases checkExitsOfRoom_shape room.id ids room.exits with hok | ⟨msg, herr⟩
    · rw [checkExits, hok]
      exact ih
    · right
      exact ⟨msg, by rw [checkExits, herr]⟩

theorem checkExits_ok_iff (ids : List String) (rooms : List AdventureRoom) :
    checkExits ids rooms = Except.ok () ↔
      ∀ r ∈ rooms, ∀ p ∈ r.exits, trimEmpty p.1 = false ∧
        trimEmpty p.2 = false ∧ p.2 ∈ ids := by
  induction rooms with
  | nil => simp [checkExits]
  | cons room rest ih =>
    rcases checkExitsOfRoom_shape room.id ids room.exits with hok | ⟨msg, herr⟩
    · rw [checkExits, hok, ih]
      constructor
      · intro hall r hr
        rcases List.mem_cons.mp hr with rfl | hr'
        · exact (checkExitsOfRoom_ok_iff r.id ids r.exits).mp hok
        · exact hall r hr'
      · intro hall r hr
        exact hall r (List.mem_cons_of_mem _ hr)
    · rw [checkExits, herr]
      constructor
      · intro hbad
        exact absurd hbad (by simp)
      · intro hall
        have := (checkExitsOfRoom_ok_iff room.id ids room.exits).mpr
          (hall room (List.mem_cons_self _ _))
        rw [this] at herr
        exact absurd herr (by simp)

theorem validate_ok_iff (a : Adventure) :
    a.validate = Except.ok () ↔ a.hasValidationIssue = false := by
  unfold Adventure.validate
  by_cases h1 : trimEmpty a.id
  · simp [Adventure.hasValidationIssue, h1]
  · by_cases h2 : trimEmpty a.title
    · simp [Adventure.hasValidationIssue, h1, h2]
    · by_cases h3 : trimEmpty a.start_room
      · simp [Adventure.hasValidationIssue, h1, h2, h3]
      · by_cases h4 : a.rooms.isEmpty
        · simp [Adventure.hasValidationIssue, h1, h2, h3, h4]
        · rw [if_neg h1, if_neg h2, if_neg h3, if_neg h4]
          rcases checkRoomIds_shape a.rooms [] with hok | ⟨msg, herr⟩
          · rw [List.nil_append] at hok
            have hfacts := (checkRoomIds_ok_iff a.rooms []).mp
              ⟨_, by rw [hok]⟩
            obtain ⟨hne, hnd, -⟩ := hfacts
            have hany : (a.rooms.any fun r => trimEmpty r.id) = false := by
              rw [List.any_eq_false]
              intro r hr
              simp [hne r hr]
            simp only [hok]
            by_cases h5 : a.start_room ∈ a.rooms.map (fun r => r.id)
            · rw [if_pos h5, checkExits_ok_iff]
              have hcont :
                  (a.rooms.map fun r => r.id).contains a.start_room = true := by
                simp [h5]
              have hdec :
                  decide ((a.rooms.map fun r => r.id).Nodup) = true :=
                decide_eq_true hnd
              rw [Bool.not_eq_true] at h1 h2 h3 h4
              simp only [Adventure.hasValidationIssue, h1, h2, h3, h4, hany,
                hdec, hcont, Bool.false_or, Bool.or_false, Bool.not_true]
              simp [List.any_eq_false, not_or, and_assoc]
            · rw [if_neg h5]
              have hcont :
                  (a.rooms.map fun r => r.id).contains a.start_room = false := by
                simp [h5]
              simp [Adventure.hasValidationIssue, h1, h2, h3, h4, hcont]
              intro _ _ _ x hx hid
              exact h5 (List.mem_map.mpr ⟨x, hx, hid⟩)
          · simp only [herr]
            have hfail : ¬((∀ r ∈ a.rooms, trimEmpty r.id = false) ∧
                (a.rooms.map fun r => r.id).Nodup) := by
              rintro ⟨hx, hy⟩
              obtain ⟨ids, hids⟩ := (checkRoomIds_ok_iff a.rooms []).mpr
                ⟨hx, hy, by simp⟩
              rw [hids] at herr
              simp at herr
            rcases not_and_or.mp hfail with hx | hy
            · have hanyt : (a.rooms.any fun r => trimEmpty r.id) = true := by
                push_neg at hx
                obtain ⟨r, hr, hrt⟩ := hx
                exact List.any_eq_true.mpr ⟨r, hr, by simpa using hrt⟩
              simp [Adventure.hasValidationIssue, hanyt]
            · have hdect :
                  (!decide ((a.rooms.map fun r => r.id).Nodup)) = true := by
                simp [hy]
              simp [Adventure.hasValidationIssue, hdect]

theorem validate_shape (a : Adventure) :
    a.validate = Except.ok () ∨
    ∃ msg, a.validate = Except.error (AdventureError.validation msg) := by
  unfold Adventure.validate
  by_cases h1 : trimEmpty a.id
  · right
    exact ⟨"adventure.id is required", by rw [if_pos h1]⟩
  · by_cases h2 : trimEmpty a.title
    · right
      exact ⟨"adventure.title is required", by rw [if_neg h1, if_pos h2]⟩
    · by_cases h3 : trimEmpty a.start_room
      · right
        exact ⟨"adventure.start_room is required",
          by rw [if_neg h1, if_neg h2, if_pos h3]⟩
      · by_cases h4 : a.rooms.isEmpty
        · right
          exact ⟨"adventure.rooms must not be empty",
            by rw [if_neg h1, if_neg h2, if_neg h3, if_pos h4]⟩
        · rw [if_neg h1, if_neg h2, if_neg h3, if_neg h4]
          rcases checkRoomIds_shape a.rooms [] with hok | ⟨msg, herr⟩
          · rw [List.nil_append] at hok
            simp only [hok]
            by_cases h5 : a.start_room ∈ a.rooms.map (fun r => r.id)
            · rw [if_pos h5]
              exact checkExits_shape (a.rooms.map (fun r => r.id)) a.rooms
            · right
              exact ⟨"start_room does not exist: " ++ a.start_room,
                by rw [if_neg h5]⟩
          · right
            exact ⟨msg, by simp only [herr]⟩

/-- C7: `Adventure::validate` returns a named validation error (an
`AdventureError::Validation` carrying a message, never a silent default
and never an `Io`/`Json` error) exactly when one of the claim's
conditions holds — empty (after trimming) adventure id, title or
start-room reference, zero rooms, a room with empty id, duplicate room
ids, an exit with empty direction or empty destination, an exit pointing
to an unknown room, or a start room absent from the room set — and
returns success otherwise. -/
theorem advC7_validate (a : Adventure) :
    ((∃ msg, a.validate = Except.error (AdventureError.validation msg)) ↔
      a.hasValidationIssue = true) ∧
    (a.hasValidationIssue = false → a.validate = Except.ok ()) := by
  have hiff := validate_ok_iff a
  refine ⟨⟨?_, ?_⟩, fun hf => hiff.mpr hf⟩
  · rintro ⟨msg, hmsg⟩
    by_contra hne
    have hfalse : a.hasValidationIssue = false := by
      cases hv : a.hasValidationIssue
      · rfl
      · exact absurd hv hne
    have hok := hiff.mpr hfalse
    rw [hmsg] at hok
    simp at hok
  · intro htrue
    rcases validate_shape a with hok | hmsg
    · have hfalse := hiff.mp hok
      rw [htrue] at hfalse
      simp at hfalse
    · exact hmsg

theorem advC7_witness :
    Adventure.demo.hasValidationIssue = false ∧
    Adventure.demo.validate = Except.ok () :=
  ⟨by decide, (advC7_validate Adventure.demo).2 (by decide)⟩
